import Mathlib

/-!
Verification of the message reconciliation layer of a WhatsApp-bridging
service.  The handlers below are a shallow embedding of the six event
handlers returned by `messageHandler(sessionId, event)` in the repository
source: `set`, `upsert`, `update`, `del`, `updateReceipt` and
`updateReaction`.  The relational store (a Prisma `message` table keyed by
the composite `(sessionId, remoteJid, id)` with a surrogate `pkId`) is
embedded as a list of rows together with an auto-increment counter, and
each Prisma statement is embedded as a total function on that state that
returns `Except` to account for statement failures (unique-constraint
violations, missing required arguments, missing records).  A
`prisma.$transaction` block is embedded by running its body as an
`Except`-valued computation and restoring the original state when the body
fails, which is the rollback semantics the driver guarantees.  Outcome
notifications published through the process-wide sink are collected in a
result list of `OutcomeEvent`s, and the `chats.upsert` requests the upsert
handler feeds back onto the client event bus are collected separately.
-/

namespace Baileys

/-- Wire form of a WhatsApp message key (`WAMessageKey`): every field is
optional, as in the protobuf type. -/
structure WAMessageKey where
  remoteJid : Option String := none
  fromMe : Option Bool := none
  id : Option String := none
  participant : Option String := none
deriving DecidableEq

/-- One per-user delivery/read receipt entry (`MessageUserReceipt`). -/
structure MessageUserReceipt where
  userJid : Option String := none
  receiptTimestamp : Option Int := none
  readTimestamp : Option Int := none
  playedTimestamp : Option Int := none
deriving DecidableEq

/-- One reaction entry (`proto.IReaction`): its own key identifies the
author, `text` is the emoji (empty text encodes a retraction). -/
structure WAReaction where
  key : Option WAMessageKey := none
  text : Option String := none
deriving DecidableEq

/-- The payload columns of a message row: the stored protobuf fields after
the transform adapter.  `content` stands for the opaque serialized message
body and `status` for a representative scalar field; `userReceipt` and
`reactions` are the two structured columns the receipt and reaction
handlers rewrite.  A `none` means the column is NULL / the field is absent
from the wire object. -/
structure PayloadCols where
  key : Option WAMessageKey := none
  messageTimestamp : Option Int := none
  content : Option String := none
  status : Option Nat := none
  userReceipt : Option (List MessageUserReceipt) := none
  reactions : Option (List WAReaction) := none
deriving DecidableEq

/-- Wire form of a message (`proto.IWebMessageInfo`): the key substructure
plus the same payload fields that are persisted as columns. -/
structure WAMessage where
  key : WAMessageKey
  messageTimestamp : Option Int := none
  content : Option String := none
  status : Option Nat := none
  userReceipt : Option (List MessageUserReceipt) := none
  reactions : Option (List WAReaction) := none
deriving DecidableEq

/-- A stored message row: surrogate primary key `pkId`, the composite key
columns `(sessionId, remoteJid, id)` and the payload columns. -/
structure MessageRow where
  pkId : Nat
  sessionId : String
  remoteJid : String
  id : String
  cols : PayloadCols
deriving DecidableEq

/-- Data for a row about to be created: `pkId = none` lets the store
assign the next auto-increment value, `pkId = some n` inserts with an
explicit surrogate key (as the update handler does when it carries the
old `pkId` through the merged record). -/
structure NewMessage where
  pkId : Option Nat := none
  sessionId : String
  remoteJid : String
  id : String
  cols : PayloadCols
deriving DecidableEq

/-- The database state: the message table, the auto-increment counter for
`pkId`, and the chat table (read-only here, consulted by the upsert
handler), stored as `(sessionId, chatId)` pairs. -/
structure Db where
  messages : List MessageRow
  nextPk : Nat
  chats : List (String × String)
deriving DecidableEq

/-- A Prisma string filter: `none` embeds a JavaScript `undefined` member,
which Prisma treats as an absent filter (matches everything). -/
def optFilter (f : Option String) (v : String) : Bool :=
  match f with
  | none => true
  | some s => s == v

/-- The row filter `{ id, remoteJid, sessionId }` used by every handler
lookup, in the member order of the source. -/
def keyMatches (sessionId : String) (jid idv : Option String) (r : MessageRow) : Bool :=
  optFilter idv r.id && optFilter jid r.remoteJid && r.sessionId == sessionId

/-- `tx.message.findFirst({ where: { id, remoteJid, sessionId } })`. -/
def Db.findFirst (db : Db) (sessionId : String) (jid idv : Option String) :
    Option MessageRow :=
  db.messages.find? (keyMatches sessionId jid idv)

/-- Whether a row with the given composite key exists. -/
def Db.hasKey (db : Db) (sessionId jid idv : String) : Bool :=
  db.messages.any (keyMatches sessionId (some jid) (some idv))

/-- Whether a row with the given surrogate key exists. -/
def Db.hasPk (db : Db) (pk : Nat) : Bool :=
  db.messages.any (fun r => r.pkId == pk)

/-- Failure message for a Prisma unique-constraint violation. -/
def uniqueViolationMsg : String := "Unique constraint failed"

/-- Failure message for a Prisma validation error (a required argument was
undefined, e.g. a null-asserted key field that was actually absent). -/
def missingKeyMsg : String := "Argument is missing"

/-- Failure message for an update/delete whose unique `where` matched no
row. -/
def recordMissingMsg : String := "Record not found"

/-- `tx.message.create({ data })`: fails on a composite-key or surrogate-key
unique-constraint violation, otherwise appends the new row. -/
def Db.create (db : Db) (n : NewMessage) : Except String (MessageRow × Db) :=
  if db.hasKey n.sessionId n.remoteJid n.id then
    Except.error uniqueViolationMsg
  else
    match n.pkId with
    | some pk =>
      if db.hasPk pk then Except.error uniqueViolationMsg
      else
        let row : MessageRow :=
          { pkId := pk, sessionId := n.sessionId, remoteJid := n.remoteJid,
            id := n.id, cols := n.cols }
        Except.ok (row, { db with messages := db.messages ++ [row] })
    | none =>
      if db.hasPk db.nextPk then Except.error uniqueViolationMsg
      else
        let row : MessageRow :=
          { pkId := db.nextPk, sessionId := n.sessionId, remoteJid := n.remoteJid,
            id := n.id, cols := n.cols }
        Except.ok (row, { db with messages := db.messages ++ [row], nextPk := db.nextPk + 1 })

/-- `tx.message.createMany({ data })`: inserts in order, failing as a whole
on the first constraint violation (it runs inside a transaction, so the
caller discards the partial state on error). -/
def Db.createMany (db : Db) (ns : List NewMessage) : Except String Db :=
  match ns with
  | [] => Except.ok db
  | n :: rest =>
    match db.create n with
    | Except.error e => Except.error e
    | Except.ok x => Db.createMany x.2 rest

/-- `tx.message.deleteMany({ where: { sessionId } })`. -/
def Db.deleteSession (db : Db) (sessionId : String) : Db :=
  { db with messages := db.messages.filter (fun r => !(r.sessionId == sessionId)) }

/-- `prisma.message.deleteMany({ where })` for an arbitrary row predicate:
a bulk delete never fails. -/
def Db.deleteWhere (db : Db) (p : MessageRow → Bool) : Db :=
  { db with messages := db.messages.filter (fun r => !(p r)) }

/-- `tx.message.delete({ where: { sessionId_remoteJid_id } })`: a compound
unique delete; it is a validation error if a key member is undefined and a
runtime error if no row matches. -/
def Db.deleteUnique (db : Db) (sessionId : String) (jid idv : Option String) :
    Except String Db :=
  match jid, idv with
  | some j, some i =>
    if db.hasKey sessionId j i then
      Except.ok { db with
        messages := db.messages.filter (fun r => !(keyMatches sessionId (some j) (some i) r)) }
    else Except.error recordMissingMsg
  | _, _ => Except.error missingKeyMsg

/-- `tx.message.update({ where: { sessionId_remoteJid_id }, data })` where
`data` touches only payload columns: rewrites the matched row's columns
through `f`.  Validation error on an undefined key member, runtime error
if no row matches. -/
def Db.updateUnique (db : Db) (sessionId : String) (jid idv : Option String)
    (f : PayloadCols → PayloadCols) : Except String Db :=
  match jid, idv with
  | some j, some i =>
    if db.hasKey sessionId j i then
      Except.ok { db with
        messages := db.messages.map (fun r =>
          if keyMatches sessionId (some j) (some i) r then { r with cols := f r.cols } else r) }
    else Except.error recordMissingMsg
  | _, _ => Except.error missingKeyMsg

/-- `prisma.chat.count({ where: { id, sessionId } }) > 0`. -/
def Db.chatExists (db : Db) (sessionId jid : String) : Bool :=
  db.chats.any (fun c => c.1 == sessionId && c.2 == jid)

/-- JavaScript truthiness of an optional string: `undefined`, `null` and
the empty string are falsy. -/
def jsTruthy (s : Option String) : Bool :=
  match s with
  | none => false
  | some v => v != ""

/-- `getKeyAuthor` from the source:
`(key?.fromMe ? "me" : key?.participant || key?.remoteJid) || ""`. -/
def getKeyAuthor (key : Option WAMessageKey) : String :=
  if (key.bind WAMessageKey.fromMe).getD false then "me"
  else
    match (if jsTruthy (key.bind WAMessageKey.participant)
           then key.bind WAMessageKey.participant
           else key.bind WAMessageKey.remoteJid) with
    | some s => s
    | none => ""

/-- Characters of `cs` strictly before the first occurrence of `c`. -/
def takeUntil (c : Char) : List Char → List Char
  | [] => []
  | x :: xs => if x == c then [] else x :: takeUntil c xs

/-- Characters of `cs` strictly after the first occurrence of `c`, or
`none` when `c` does not occur. -/
def dropAfter (c : Char) : List Char → Option (List Char)
  | [] => none
  | x :: xs => if x == c then some xs else dropAfter c xs

/-- Modelled from the spec: `jidNormalizedUser` of the protocol client
library (not part of this repository), described in the spec as
normalizing the chat identifier to canonical form by stripping device
suffixes (the `:device` part of the user portion of a JID).  The library
returns the empty string when the argument is absent. -/
def jidNormalizedUser (jid : Option String) : String :=
  match jid with
  | none => ""
  | some j =>
    match dropAfter '@' j.toList with
    | none => j
    | some server => String.mk (takeUntil ':' (takeUntil '@' j.toList) ++ '@' :: server)

/-- Modelled from the spec: `transformPrisma` of the Transform/Serialize
Adapter (in the repository but outside the provided sources), which
converts a wire message into the storage row representation field by
field; absent wire fields stay absent, so they are dropped from the
resulting Prisma data object and a write built from it does not touch the
corresponding columns. -/
def transformPrisma (m : WAMessage) : PayloadCols :=
  { key := some m.key
    messageTimestamp := m.messageTimestamp
    content := m.content
    status := m.status
    userReceipt := m.userReceipt
    reactions := m.reactions }

/-- The effect of a Prisma update whose `data` object is a transformed
message: every member present in the patch overwrites the column, absent
members leave the column untouched (Prisma skips `undefined` members). -/
def applyColsPatch (old p : PayloadCols) : PayloadCols :=
  { key := p.key <|> old.key
    messageTimestamp := p.messageTimestamp <|> old.messageTimestamp
    content := p.content <|> old.content
    status := p.status <|> old.status
    userReceipt := p.userReceipt <|> old.userReceipt
    reactions := p.reactions <|> old.reactions }

/-- A delta of a `messages.update` event: a `Partial` wire message, every
member optional (`none` embeds an absent member). -/
structure MessageDelta where
  key : Option WAMessageKey := none
  messageTimestamp : Option Int := none
  content : Option String := none
  status : Option Nat := none
  userReceipt : Option (List MessageUserReceipt) := none
  reactions : Option (List WAReaction) := none
deriving DecidableEq

/-- The JavaScript spread merge `{ ...prevData, ...update }` restricted to
the payload columns: members present in the delta overwrite, absent ones
keep the stored value.  (The non-payload columns `pkId`, `sessionId`,
`remoteJid`, `id` of `prevData` survive the spread unchanged because a
`Partial` wire message has no such members.) -/
def mergedCols (old : PayloadCols) (d : MessageDelta) : PayloadCols :=
  { key := d.key <|> old.key
    messageTimestamp := d.messageTimestamp <|> old.messageTimestamp
    content := d.content <|> old.content
    status := d.status <|> old.status
    userReceipt := d.userReceipt <|> old.userReceipt
    reactions := d.reactions <|> old.reactions }

/-- One shape of the `messages.delete` payload: `{ all: true, jid }` or
`{ keys: WAMessageKey[] }`. -/
inductive DelInput where
  | all (jid : String)
  | keys (keys : List WAMessageKey)
deriving DecidableEq

/-- A synthetic `chats.upsert` request the upsert handler emits back onto
the client event bus when a `notify` message arrives for an unknown chat. -/
structure ChatUpsertReq where
  id : String
  conversationTimestamp : Int
  unreadCount : Nat
deriving DecidableEq

/-- Payload of an outcome event, one constructor per produced shape. -/
inductive EventPayload where
  | batch (messages : List NewMessage)
  | single (messages : PayloadCols)
  | updated (messages : NewMessage)
  | deleted (message : DelInput)
  | receiptOf (key : WAMessageKey) (receipt : MessageUserReceipt)
  | reactionOf (key : WAMessageKey) (reaction : WAReaction)
deriving DecidableEq

/-- Modelled from the spec: an outcome published through `emitEvent` of
the Event Emission Sink (in the repository but outside the provided
sources), keyed by `(eventName, sessionId, payload | undefined, status?,
message?)`. -/
structure OutcomeEvent where
  name : String
  sessionId : String
  payload : Option EventPayload := none
  status : Option String := none
  message : Option String := none
deriving DecidableEq

/-- A success outcome: `emitEvent(name, sessionId, payload)`. -/
def okEvent (name sessionId : String) (p : EventPayload) : OutcomeEvent :=
  { name := name, sessionId := sessionId, payload := some p }

/-- An error outcome: `emitEvent(name, sessionId, undefined, "error", msg)`. -/
def errEvent (name sessionId msg : String) : OutcomeEvent :=
  { name := name, sessionId := sessionId, status := some "error", message := some msg }

/-- The fixed template prefixed to failure causes by the history loader. -/
def setErrPrefix : String := "An error occured during messages set: "

/-- The fixed template prefixed to failure causes by the upsert handler. -/
def upsertErrPrefix : String := "An error occured during messages upsert: "

/-- The fixed template prefixed to failure causes by the update handler. -/
def updateErrPrefix : String := "An error occured during messages update: "

/-- The fixed template prefixed to failure causes by the delete handler. -/
def delErrPrefix : String := "An error occured during messages delete: "

/-- The fixed template prefixed to failure causes by the receipt handler. -/
def receiptErrPrefix : String := "An error occured during messages receipt update: "

/-- The fixed template prefixed to failure causes by the reaction handler. -/
def reactionErrPrefix : String := "An error occured during messages reaction update: "

/-- The TypeError raised by `item.keys[0].remoteJid` on an empty key list. -/
def undefinedKeyMsg : String := "Cannot read properties of undefined"

/-- Row data built by the history loader for one wire message:
`{ ...transformPrisma(message), remoteJid: message.key.remoteJid!,
id: message.key.id!, sessionId }`.  A null-asserted key field that is
actually absent leaves the required column undefined, which the insert
rejects as a validation error. -/
def toNewMessage (sessionId : String) (m : WAMessage) : Except String NewMessage :=
  match m.key.remoteJid, m.key.id with
  | some jid, some i =>
    Except.ok { sessionId := sessionId, remoteJid := jid, id := i, cols := transformPrisma m }
  | _, _ => Except.error missingKeyMsg

/-- The history loader's batch mapping `messages.map(...)`. -/
def toNewMessages (sessionId : String) (ms : List WAMessage) :
    Except String (List NewMessage) :=
  match ms with
  | [] => Except.ok []
  | m :: rest =>
    match toNewMessage sessionId m, toNewMessages sessionId rest with
    | Except.ok n, Except.ok ns => Except.ok (n :: ns)
    | Except.error e, _ => Except.error e
    | Except.ok _, Except.error e => Except.error e

/-- The `messaging-history.set` handler `set({ messages, isLatest })`:
inside one transaction, delete every row of the session when `isLatest`,
then bulk-insert the transformed batch and publish the success outcome;
when the transaction body fails the state is rolled back and an error
outcome with the per-operation template is published.  Note the source
publishes both outcomes under the `messages.upsert` event name. -/
def set (sessionId : String) (messages : List WAMessage) (isLatest : Bool) (db : Db) :
    Db × List OutcomeEvent :=
  match toNewMessages sessionId messages with
  | Except.error e =>
    (db, [errEvent "messages.upsert" sessionId (setErrPrefix ++ e)])
  | Except.ok rows =>
    match (if isLatest then db.deleteSession sessionId else db).createMany rows with
    | Except.error e =>
      (db, [errEvent "messages.upsert" sessionId (setErrPrefix ++ e)])
    | Except.ok db2 =>
      (db2, [okEvent "messages.upsert" sessionId (EventPayload.batch rows)])

/-- The `type` tag of a `messages.upsert` event. -/
inductive UpsertType where
  | append
  | notify
  | other
deriving DecidableEq

/-- `model.upsert({ create, update, where: { sessionId_remoteJid_id } })`:
update in place when the composite key exists, otherwise create. -/
def upsertRowTx (sessionId jid mid : String) (data : PayloadCols) (db : Db) :
    Except String Db :=
  if db.hasKey sessionId jid mid then
    Except.ok { db with messages := db.messages.map (fun r =>
      if keyMatches sessionId (some jid) (some mid) r
      then { r with cols := applyColsPatch r.cols data } else r) }
  else
    match db.create { sessionId := sessionId, remoteJid := jid, id := mid, cols := data } with
    | Except.error e => Except.error e
    | Except.ok x => Except.ok x.2

/-- One iteration of the upsert handler's `for` loop: normalize the chat
identifier, transform the message, upsert by composite key, publish the
per-message outcome, and for a `notify` message of an unknown chat emit a
synthetic `chats.upsert` request.  Failures are caught per message and
published as an error outcome. -/
def upsertOne (sessionId : String) (ty : UpsertType) (m : WAMessage) (db : Db) :
    Db × List OutcomeEvent × List ChatUpsertReq :=
  let jid := jidNormalizedUser m.key.remoteJid
  let data := transformPrisma m
  match m.key.id with
  | none =>
    (db, [errEvent "messages.upsert" sessionId (upsertErrPrefix ++ missingKeyMsg)], [])
  | some mid =>
    match upsertRowTx sessionId jid mid data db with
    | Except.error e =>
      (db, [errEvent "messages.upsert" sessionId (upsertErrPrefix ++ e)], [])
    | Except.ok db1 =>
      let chats :=
        if ty == UpsertType.notify && !(db1.chatExists sessionId jid) then
          [{ id := jid, conversationTimestamp := m.messageTimestamp.getD 0,
             unreadCount := 1 : ChatUpsertReq }]
        else []
      (db1, [okEvent "messages.upsert" sessionId (EventPayload.single data)], chats)

/-- The upsert handler's `for` loop over the batch: strictly in order,
each iteration isolated by its own try/catch. -/
def upsertLoop (sessionId : String) (ty : UpsertType) (ms : List WAMessage) (db : Db) :
    Db × List OutcomeEvent × List ChatUpsertReq :=
  match ms with
  | [] => (db, [], [])
  | m :: rest =>
    let r1 := upsertOne sessionId ty m db
    let r2 := upsertLoop sessionId ty rest r1.1
    (r2.1, r1.2.1 ++ r2.2.1, r1.2.2 ++ r2.2.2)

/-- The `messages.upsert` handler `upsert({ messages, type })`: the batch
is processed only for the `append` and `notify` tags; any other tag is a
no-op. -/
def upsert (sessionId : String) (ty : UpsertType) (ms : List WAMessage) (db : Db) :
    Db × List OutcomeEvent × List ChatUpsertReq :=
  match ty with
  | UpsertType.append => upsertLoop sessionId ty ms db
  | UpsertType.notify => upsertLoop sessionId ty ms db
  | UpsertType.other => (db, [], [])

/-- One item of a `messages.update` batch, `{ update, key }`. -/
structure MessageUpdateItem where
  update : MessageDelta
  key : WAMessageKey
deriving DecidableEq

/-- The transaction body of one update iteration: look the row up by
`(id, remoteJid, sessionId)` (absent: log and skip, committing nothing),
merge the delta over the full record, delete the old row by compound key,
and re-create the merged record with its composite columns re-derived from
the merged key substructure and the old `pkId` carried through the spread. -/
def updateOneTx (sessionId : String) (key : WAMessageKey) (d : MessageDelta) (db : Db) :
    Except String (Db × Option NewMessage) :=
  match db.findFirst sessionId key.remoteJid key.id with
  | none => Except.ok (db, none)
  | some prev =>
    let cols := mergedCols prev.cols d
    match db.deleteUnique sessionId key.remoteJid key.id with
    | Except.error e => Except.error e
    | Except.ok db1 =>
      match cols.key.bind WAMessageKey.id, cols.key.bind WAMessageKey.remoteJid with
      | some i, some j =>
        let n : NewMessage :=
          { pkId := some prev.pkId, sessionId := sessionId, remoteJid := j, id := i, cols := cols }
        match db1.create n with
        | Except.error e => Except.error e
        | Except.ok x => Except.ok (x.2, some n)
      | _, _ => Except.error missingKeyMsg

/-- One update iteration with its catch boundary: a transaction failure
rolls the delete and insert back together and publishes an error outcome;
a skipped missing row publishes nothing. -/
def updateOne (sessionId : String) (it : MessageUpdateItem) (db : Db) :
    Db × List OutcomeEvent :=
  match updateOneTx sessionId it.key it.update db with
  | Except.error e =>
    (db, [errEvent "messages.update" sessionId (updateErrPrefix ++ e)])
  | Except.ok (db1, none) => (db1, [])
  | Except.ok (db1, some n) =>
    (db1, [okEvent "messages.update" sessionId (EventPayload.updated n)])

/-- The `messages.update` handler: the batch loop, in order. -/
def update (sessionId : String) (items : List MessageUpdateItem) (db : Db) :
    Db × List OutcomeEvent :=
  match items with
  | [] => (db, [])
  | it :: rest =>
    let r1 := updateOne sessionId it db
    let r2 := update sessionId rest r1.1
    (r2.1, r1.2 ++ r2.2)

/-- The `messages.delete` handler `del(item)`: delete-all-for-chat removes
every row of the chat in the session; delete-by-keys reads the first key's
chat identifier (a TypeError on an empty list, caught and published as an
error outcome) and removes the listed ids scoped to that chat and session.
Either way one outcome describing the original request is published. -/
def del (sessionId : String) (item : DelInput) (db : Db) : Db × List OutcomeEvent :=
  match item with
  | DelInput.all jid =>
    (db.deleteWhere (fun r => r.remoteJid == jid && r.sessionId == sessionId),
     [okEvent "messages.delete" sessionId (EventPayload.deleted (DelInput.all jid))])
  | DelInput.keys [] =>
    (db, [errEvent "messages.delete" sessionId (delErrPrefix ++ undefinedKeyMsg)])
  | DelInput.keys (k0 :: ks) =>
    let jid := k0.remoteJid
    let ids := (k0 :: ks).map WAMessageKey.id
    (db.deleteWhere (fun r =>
       ids.contains (some r.id) && optFilter jid r.remoteJid && r.sessionId == sessionId),
     [okEvent "messages.delete" sessionId (EventPayload.deleted (DelInput.keys (k0 :: ks)))])

/-- One item of a `message-receipt.update` batch, `{ key, receipt }`. -/
structure ReceiptItem where
  key : WAMessageKey
  receipt : MessageUserReceipt
deriving DecidableEq

/-- The replace-or-append step on the stored receipt list: a receipt whose
`userJid` is already present replaces the existing entry (moved to the
end), otherwise the receipt is appended. -/
def applyReceipt (lst : List MessageUserReceipt) (receipt : MessageUserReceipt) :
    List MessageUserReceipt :=
  if lst.any (fun m => m.userJid == receipt.userJid) then
    lst.filter (fun m => m.userJid != receipt.userJid) ++ [receipt]
  else lst ++ [receipt]

/-- The transaction body of one receipt iteration: fetch the row's receipt
column (absent row: log at debug level and skip), replace-or-append, and
write back only the receipt column. -/
def updateReceiptOneTx (sessionId : String) (key : WAMessageKey)
    (receipt : MessageUserReceipt) (db : Db) : Except String (Db × Bool) :=
  match db.findFirst sessionId key.remoteJid key.id with
  | none => Except.ok (db, false)
  | some row =>
    let l := applyReceipt (row.cols.userReceipt.getD []) receipt
    match db.updateUnique sessionId key.remoteJid key.id
        (fun c => { c with userReceipt := some l }) with
    | Except.error e => Except.error e
    | Except.ok db1 => Except.ok (db1, true)

/-- One receipt iteration with its catch boundary. -/
def updateReceiptOne (sessionId : String) (it : ReceiptItem) (db : Db) :
    Db × List OutcomeEvent :=
  match updateReceiptOneTx sessionId it.key it.receipt db with
  | Except.error e =>
    (db, [errEvent "message-receipt.update" sessionId (receiptErrPrefix ++ e)])
  | Except.ok (db1, false) => (db1, [])
  | Except.ok (db1, true) =>
    (db1, [okEvent "message-receipt.update" sessionId (EventPayload.receiptOf it.key it.receipt)])

/-- The `message-receipt.update` handler: the batch loop, in order. -/
def updateReceipt (sessionId : String) (items : List ReceiptItem) (db : Db) :
    Db × List OutcomeEvent :=
  match items with
  | [] => (db, [])
  | it :: rest =>
    let r1 := updateReceiptOne sessionId it db
    let r2 := updateReceipt sessionId rest r1.1
    (r2.1, r1.2 ++ r2.2)

/-- One item of a `messages.reaction` batch, `{ key, reaction }`. -/
structure ReactionItem where
  key : WAMessageKey
  reaction : WAReaction
deriving DecidableEq

/-- The retraction-then-add step on the stored reaction list: every stored
reaction by the incoming reaction's author is removed, and the incoming
reaction is added only when its text is truthy (non-empty). -/
def applyReactionList (lst : List WAReaction) (reaction : WAReaction) : List WAReaction :=
  let authorID := getKeyAuthor reaction.key
  let filtered := lst.filter (fun r => getKeyAuthor r.key != authorID)
  if jsTruthy reaction.text then filtered ++ [reaction] else filtered

/-- The transaction body of one reaction iteration: fetch the row's
reaction column (absent row: log at debug level and skip), retract and
optionally add, and write back only the reaction column. -/
def updateReactionOneTx (sessionId : String) (key : WAMessageKey)
    (reaction : WAReaction) (db : Db) : Except String (Db × Bool) :=
  match db.findFirst sessionId key.remoteJid key.id with
  | none => Except.ok (db, false)
  | some row =>
    let l := applyReactionList (row.cols.reactions.getD []) reaction
    match db.updateUnique sessionId key.remoteJid key.id
        (fun c => { c with reactions := some l }) with
    | Except.error e => Except.error e
    | Except.ok db1 => Except.ok (db1, true)

/-- One reaction iteration with its catch boundary. -/
def updateReactionOne (sessionId : String) (it : ReactionItem) (db : Db) :
    Db × List OutcomeEvent :=
  match updateReactionOneTx sessionId it.key it.reaction db with
  | Except.error e =>
    (db, [errEvent "messages.reaction" sessionId (reactionErrPrefix ++ e)])
  | Except.ok (db1, false) => (db1, [])
  | Except.ok (db1, true) =>
    (db1, [okEvent "messages.reaction" sessionId (EventPayload.reactionOf it.key it.reaction)])

/-- The `messages.reaction` handler: the batch loop, in order. -/
def updateReaction (sessionId : String) (items : List ReactionItem) (db : Db) :
    Db × List OutcomeEvent :=
  match items with
  | [] => (db, [])
  | it :: rest =>
    let r1 := updateReactionOne sessionId it db
    let r2 := updateReaction sessionId rest r1.1
    (r2.1, r1.2 ++ r2.2)

/-- The empty database used as a concrete starting state. -/
def dbEmpty : Db := { messages := [], nextPk := 1, chats := [] }

/-!  Shared list lemmas. -/

theorem find?_eq_filter_head {α : Type} (l : List α) (p : α → Bool) :
    l.find? p = (l.filter p).head? := by
  induction l with
  | nil => rfl
  | cons a t ih =>
    cases hpa : p a with
    | true =>
      rw [List.find?_cons_of_pos t hpa]
      simp [List.filter_cons, hpa]
    | false =>
      rw [List.find?_cons_of_neg t (by simp [hpa])]
      rw [List.filter_cons, if_neg (by simp [hpa])]
      exact ih

theorem filter_map_comm {α : Type} (l : List α) (f : α → α) (p : α → Bool)
    (hp : ∀ a, p (f a) = p a) : (l.map f).filter p = (l.filter p).map f := by
  induction l with
  | nil => rfl
  | cons a t ih =>
    cases hpa : p a with
    | true => simp [List.filter_cons, List.map_cons, hp, hpa, ih]
    | false => simp [List.filter_cons, List.map_cons, hp, hpa, ih]

theorem any_map_comm {α : Type} (l : List α) (f : α → α) (p : α → Bool)
    (hp : ∀ a, p (f a) = p a) : (l.map f).any p = l.any p := by
  induction l with
  | nil => rfl
  | cons a t ih => simp [List.any_cons, hp, ih]

theorem filter_not_filter_self {α : Type} (l : List α) (p : α → Bool) :
    (l.filter (fun a => !(p a))).filter p = [] := by
  refine List.filter_eq_nil_iff.mpr ?_
  intro a ha
  have h2 := List.of_mem_filter ha
  simp at h2
  simp [h2]

theorem filter_filter_self {α : Type} (l : List α) (p : α → Bool) :
    (l.filter p).filter p = l.filter p :=
  List.filter_eq_self.mpr (fun _ ha => List.of_mem_filter ha)

theorem any_eq_false_of_filter_nil {α : Type} (l : List α) (p : α → Bool)
    (h : l.filter p = []) : l.any p = false := by
  rw [List.any_eq_false]
  intro a ha hpa
  have hmem : a ∈ l.filter p := List.mem_filter_of_mem ha hpa
  simp [h] at hmem

theorem any_eq_true_of_filter_singleton {α : Type} (l : List α) (p : α → Bool) (x : α)
    (h : l.filter p = [x]) : l.any p = true := by
  rw [List.any_eq_true]
  have hmem : x ∈ l.filter p := by simp [h]
  exact ⟨x, List.mem_of_mem_filter hmem, List.of_mem_filter hmem⟩

/-- The row filter only inspects the key columns, never the payload. -/
theorem keyMatches_set_cols (sessionId : String) (jid idv : Option String)
    (r : MessageRow) (c : PayloadCols) :
    keyMatches sessionId jid idv { r with cols := c } = keyMatches sessionId jid idv r := rfl

/-- A successfully transformed history batch keeps its length and scopes
every row to the session, with auto-assigned surrogate keys. -/
theorem toNewMessage_props (sessionId : String) (m : WAMessage) (n : NewMessage)
    (h : toNewMessage sessionId m = Except.ok n) :
    n.sessionId = sessionId ∧ n.pkId = none := by
  unfold toNewMessage at h
  split at h
  · injection h with h1
    rw [← h1]
    exact ⟨rfl, rfl⟩
  · exact Except.noConfusion h

theorem toNewMessages_props (sessionId : String) (ms : List WAMessage)
    (rows : List NewMessage) (h : toNewMessages sessionId ms = Except.ok rows) :
    rows.length = ms.length ∧ ∀ n ∈ rows, n.sessionId = sessionId ∧ n.pkId = none := by
  induction ms generalizing rows with
  | nil =>
    unfold toNewMessages at h
    injection h with h1
    rw [← h1]
    exact ⟨rfl, by intro n hn; cases hn⟩
  | cons m rest ih =>
    unfold toNewMessages at h
    split at h
    · rename_i n ns hn hns
      injection h with h1
      obtain ⟨ihlen, ihmem⟩ := ih ns hns
      rw [← h1]
      refine ⟨by simp [ihlen], ?_⟩
      intro x hx
      rcases List.mem_cons.mp hx with hx1 | hx2
      · rw [hx1]; exact toNewMessage_props sessionId m n hn
      · exact ihmem x hx2
    · exact Except.noConfusion h
    · exact Except.noConfusion h

/-- A successful bulk insert of session-scoped rows grows the session's
row count by the batch length and leaves rows of other sessions exactly
as they were. -/
theorem createMany_counts (sessionId : String) (ns : List NewMessage) (db db2 : Db)
    (h : Db.createMany db ns = Except.ok db2)
    (hs : ∀ n ∈ ns, n.sessionId = sessionId ∧ n.pkId = none) :
    (db2.messages.filter (fun r => r.sessionId == sessionId)).length
      = (db.messages.filter (fun r => r.sessionId == sessionId)).length + ns.length ∧
    db2.messages.filter (fun r => !(r.sessionId == sessionId)) =
      db.messages.filter (fun r => !(r.sessionId == sessionId)) := by
  induction ns generalizing db with
  | nil =>
    unfold Db.createMany at h
    injection h with h1
    rw [h1]
    exact ⟨rfl, rfl⟩
  | cons n rest ih =>
    obtain ⟨hnsid, hnpk⟩ := hs n (List.mem_cons_self n rest)
    unfold Db.createMany at h
    split at h
    · exact Except.noConfusion h
    · rename_i x hx
      unfold Db.create at hx
      rw [hnpk] at hx
      split at hx
      · exact Except.noConfusion hx
      · split at hx
        · rename_i pk heq
          exact Option.noConfusion heq
        · split at hx
          · exact Except.noConfusion hx
          · injection hx with hx1
            obtain ⟨ihlen, ihrest⟩ := ih x.2 h (fun a ha => hs a (List.mem_cons_of_mem n ha))
            rw [← hx1] at ihlen ihrest
            constructor
            · rw [ihlen]
              simp [List.filter_append, List.filter_cons, hnsid]
              omega
            · rw [ihrest]
              simp [List.filter_append, List.filter_cons, hnsid]

theorem deleteSession_filter_self (db : Db) (sessionId : String) :
    (db.deleteSession sessionId).messages.filter (fun r => r.sessionId == sessionId) = [] :=
  filter_not_filter_self db.messages (fun r => r.sessionId == sessionId)

theorem deleteSession_filter_not (db : Db) (sessionId : String) :
    (db.deleteSession sessionId).messages.filter (fun r => !(r.sessionId == sessionId)) =
      db.messages.filter (fun r => !(r.sessionId == sessionId)) :=
  filter_filter_self db.messages (fun r => !(r.sessionId == sessionId))

/-!  Claim theorems. -/

/-- C1: the history loader called with `isLatest = true` and a batch of N
messages either succeeds — and then the session's message table holds
exactly N rows (every prior row of the session was replaced) while rows of
other sessions are untouched — or the bulk insert fails and the delete and
insert roll back together, leaving the table exactly as before the call
(the error outcome is published with the state unchanged). -/
theorem set_isLatest_replaces_atomically (sessionId : String) (ms : List WAMessage)
    (db db2 : Db) (evs : List OutcomeEvent) (h : set sessionId ms true db = (db2, evs)) :
    ((∃ msg, evs = [errEvent "messages.upsert" sessionId msg]) → db2 = db) ∧
    ((∃ rows, evs = [okEvent "messages.upsert" sessionId (EventPayload.batch rows)]) →
      (db2.messages.filter (fun r => r.sessionId == sessionId)).length = ms.length ∧
      db2.messages.filter (fun r => !(r.sessionId == sessionId)) =
        db.messages.filter (fun r => !(r.sessionId == sessionId))) := by
  unfold set at h
  rw [if_pos rfl] at h
  cases htx : toNewMessages sessionId ms with
  | error e =>
    rw [htx] at h
    injection h with h1 h2
    constructor
    · intro _
      exact h1.symm
    · rintro ⟨rows, hr⟩
      rw [← h2] at hr
      simp [okEvent, errEvent] at hr
  | ok rows =>
    rw [htx] at h
    simp only [] at h
    cases hcm : Db.createMany (db.deleteSession sessionId) rows with
    | error e =>
      rw [hcm] at h
      injection h with h1 h2
      constructor
      · intro _
        exact h1.symm
      · rintro ⟨rows2, hr⟩
        rw [← h2] at hr
        simp [okEvent, errEvent] at hr
    | ok dbx =>
      rw [hcm] at h
      injection h with h1 h2
      constructor
      · rintro ⟨msg, hm⟩
        rw [← h2] at hm
        simp [okEvent, errEvent] at hm
      · intro _
        obtain ⟨hlen, hprops⟩ := toNewMessages_props sessionId ms rows htx
        obtain ⟨clen, crest⟩ := createMany_counts sessionId rows _ dbx hcm hprops
        rw [← h1]
        constructor
        · rw [clen, deleteSession_filter_self, hlen]
          simp
        · rw [crest, deleteSession_filter_not]

/-- Concrete prior state for the C1 witness: one stale row in the target
session and one row in an unrelated session. -/
def c1Db : Db :=
  { messages :=
      [{ pkId := 1, sessionId := "s1", remoteJid := "a@s", id := "old", cols := {} },
       { pkId := 2, sessionId := "s2", remoteJid := "a@s", id := "keep", cols := {} }],
    nextPk := 3, chats := [] }

/-- Concrete history batch for the C1 witness. -/
def c1Msgs : List WAMessage :=
  [{ key := { remoteJid := some "b@s", id := some "new1" } }]

/-- Witness for C1 at a concrete input. -/
theorem set_isLatest_replaces_atomically_witness :
    ((∃ msg, (set "s1" c1Msgs true c1Db).2 = [errEvent "messages.upsert" "s1" msg]) →
       (set "s1" c1Msgs true c1Db).1 = c1Db) ∧
    ((∃ rows, (set "s1" c1Msgs true c1Db).2 =
        [okEvent "messages.upsert" "s1" (EventPayload.batch rows)]) →
      ((set "s1" c1Msgs true c1Db).1.messages.filter
          (fun r => r.sessionId == "s1")).length = c1Msgs.length ∧
      (set "s1" c1Msgs true c1Db).1.messages.filter (fun r => !(r.sessionId == "s1")) =
        c1Db.messages.filter (fun r => !(r.sessionId == "s1"))) :=
  set_isLatest_replaces_atomically "s1" c1Msgs c1Db
    (set "s1" c1Msgs true c1Db).1 (set "s1" c1Msgs true c1Db).2 rfl

/-- Every iteration of the upsert loop publishes exactly one outcome
event, whether it succeeds or fails. -/
theorem upsertOne_events_length (sessionId : String) (ty : UpsertType) (m : WAMessage)
    (db : Db) : (upsertOne sessionId ty m db).2.1.length = 1 := by
  simp only [upsertOne]
  cases m.key.id with
  | none => rfl
  | some mid =>
    cases h : upsertRowTx sessionId (jidNormalizedUser m.key.remoteJid) mid
        (transformPrisma m) db with
    | error e => simp [h]
    | ok db1 => simp [h]

/-- A message whose key lacks an id makes its iteration fail: the caught
failure publishes the error outcome and leaves the store unchanged. -/
theorem upsertOne_bad (sessionId : String) (ty : UpsertType) (m : WAMessage) (db : Db)
    (hbad : m.key.id = none) :
    upsertOne sessionId ty m db =
      (db, [errEvent "messages.upsert" sessionId (upsertErrPrefix ++ missingKeyMsg)], []) := by
  simp only [upsertOne, hbad]

/-- The upsert loop processes a concatenation strictly in order: the
second part starts from the state the first part produced, and the event
streams concatenate. -/
theorem upsertLoop_append (sessionId : String) (ty : UpsertType) (xs ys : List WAMessage)
    (db : Db) :
    upsertLoop sessionId ty (xs ++ ys) db =
      ((upsertLoop sessionId ty ys (upsertLoop sessionId ty xs db).1).1,
       (upsertLoop sessionId ty xs db).2.1 ++
         (upsertLoop sessionId ty ys (upsertLoop sessionId ty xs db).1).2.1,
       (upsertLoop sessionId ty xs db).2.2 ++
         (upsertLoop sessionId ty ys (upsertLoop sessionId ty xs db).1).2.2) := by
  induction xs generalizing db with
  | nil => simp [upsertLoop]
  | cons m rest ih => simp [upsertLoop, ih, List.append_assoc]

theorem upsertLoop_events_length (sessionId : String) (ty : UpsertType)
    (ms : List WAMessage) (db : Db) :
    (upsertLoop sessionId ty ms db).2.1.length = ms.length := by
  induction ms generalizing db with
  | nil => rfl
  | cons m rest ih =>
    simp [upsertLoop, upsertOne_events_length, ih]
    omega

/-- C7: for an upsert batch tagged `append` or `notify`, the handler
processes the messages strictly in order, and a failing message (here: a
message whose key has no id, which makes its statement fail) contributes
exactly one error outcome and no state change while every later message of
the batch is still processed from the state the earlier messages produced.
Moreover every message of the batch — before or after a failure — yields
exactly one outcome event. -/
theorem upsert_per_message_isolation (sessionId : String) (ty : UpsertType)
    (pre post : List WAMessage) (bad : WAMessage) (db : Db)
    (hty : ty = UpsertType.append ∨ ty = UpsertType.notify)
    (hbad : bad.key.id = none) :
    (upsert sessionId ty (pre ++ bad :: post) db).1 =
      (upsertLoop sessionId ty post (upsertLoop sessionId ty pre db).1).1 ∧
    (upsert sessionId ty (pre ++ bad :: post) db).2.1 =
      (upsertLoop sessionId ty pre db).2.1 ++
        errEvent "messages.upsert" sessionId (upsertErrPrefix ++ missingKeyMsg) ::
          (upsertLoop sessionId ty post (upsertLoop sessionId ty pre db).1).2.1 ∧
    (upsert sessionId ty (pre ++ bad :: post) db).2.2 =
      (upsertLoop sessionId ty pre db).2.2 ++
        (upsertLoop sessionId ty post (upsertLoop sessionId ty pre db).1).2.2 ∧
    ∀ (ms : List WAMessage) (dbx : Db),
      (upsert sessionId ty ms dbx).2.1.length = ms.length := by
  have hu : ∀ (ms : List WAMessage) (dbx : Db),
      upsert sessionId ty ms dbx = upsertLoop sessionId ty ms dbx := by
    rcases hty with h | h <;> (subst h; intro ms dbx; rfl)
  have hmid : ∀ dbx : Db, upsertLoop sessionId ty (bad :: post) dbx =
      ((upsertLoop sessionId ty post dbx).1,
       errEvent "messages.upsert" sessionId (upsertErrPrefix ++ missingKeyMsg) ::
         (upsertLoop sessionId ty post dbx).2.1,
       (upsertLoop sessionId ty post dbx).2.2) := by
    intro dbx
    simp [upsertLoop, upsertOne_bad sessionId ty bad dbx hbad]
  refine ⟨?_, ?_, ?_, ?_⟩
  · rw [hu, upsertLoop_append, hmid]
  · rw [hu, upsertLoop_append, hmid]
  · rw [hu, upsertLoop_append, hmid]
  · intro ms dbx
    rw [hu]
    exact upsertLoop_events_length sessionId ty ms dbx

/-- Concrete batch for the C7 witness: a valid message, then a message
with no key id, then another valid message. -/
def c7Good1 : WAMessage := { key := { remoteJid := some "a@s", id := some "g1" } }

/-- Second valid message of the C7 witness batch. -/
def c7Good2 : WAMessage := { key := { remoteJid := some "a@s", id := some "g2" } }

/-- The failing message of the C7 witness batch: its key has no id. -/
def c7Bad : WAMessage := { key := { remoteJid := some "a@s" } }

/-- Witness for C7 at a concrete input. -/
theorem upsert_per_message_isolation_witness :
    (upsert "s7" UpsertType.append [c7Good1, c7Bad, c7Good2] dbEmpty).1 =
      (upsertLoop "s7" UpsertType.append [c7Good2]
        (upsertLoop "s7" UpsertType.append [c7Good1] dbEmpty).1).1 ∧
    (upsert "s7" UpsertType.append [c7Good1, c7Bad, c7Good2] dbEmpty).2.1 =
      (upsertLoop "s7" UpsertType.append [c7Good1] dbEmpty).2.1 ++
        errEvent "messages.upsert" "s7" (upsertErrPrefix ++ missingKeyMsg) ::
          (upsertLoop "s7" UpsertType.append [c7Good2]
            (upsertLoop "s7" UpsertType.append [c7Good1] dbEmpty).1).2.1 ∧
    (upsert "s7" UpsertType.append [c7Good1, c7Bad, c7Good2] dbEmpty).2.2 =
      (upsertLoop "s7" UpsertType.append [c7Good1] dbEmpty).2.2 ++
        (upsertLoop "s7" UpsertType.append [c7Good2]
          (upsertLoop "s7" UpsertType.append [c7Good1] dbEmpty).1).2.2 ∧
    ∀ (ms : List WAMessage) (dbx : Db),
      (upsert "s7" UpsertType.append ms dbx).2.1.length = ms.length :=
  upsert_per_message_isolation "s7" UpsertType.append [c7Good1] [c7Good2] c7Bad dbEmpty
    (Or.inl rfl) rfl

/-- Uniqueness of a list under a key projection: no two entries share the
projected value. -/
def uniqueBy {α β : Type} (f : α → β) (l : List α) : Prop :=
  l.Pairwise (fun a b => f a ≠ f b)

theorem filter_bne_filter_beq_nil {α β : Type} [BEq β] (l : List α) (f : α → β) (v : β) :
    (l.filter (fun a => f a != v)).filter (fun a => f a == v) = [] := by
  induction l with
  | nil => rfl
  | cons a t ih =>
    cases hfa : f a == v with
    | true => simp [List.filter_cons, bne, hfa, ih]
    | false => simp [List.filter_cons, bne, hfa, ih]

theorem filter_bne_length {α β : Type} [BEq β] [LawfulBEq β] (l : List α) (f : α → β)
    (v : β) (hpw : l.Pairwise (fun a b => f a ≠ f b))
    (hany : l.any (fun a => f a == v) = true) :
    (l.filter (fun a => f a != v)).length + 1 = l.length := by
  induction l with
  | nil => simp at hany
  | cons a t ih =>
    cases hfa : f a == v with
    | true =>
      have hfa2 : f a = v := eq_of_beq hfa
      have hall : ∀ b ∈ t, (f b != v) = true := by
        intro b hb
        have hne := (List.pairwise_cons.mp hpw).1 b hb
        rw [hfa2] at hne
        simp [bne]
        exact fun hh => hne hh.symm
      rw [List.filter_cons, if_neg (by simp [bne, hfa])]
      rw [List.filter_eq_self.mpr hall]
      simp
    | false =>
      have hpw2 := (List.pairwise_cons.mp hpw).2
      have hany2 : t.any (fun a => f a == v) = true := by
        rw [List.any_cons, hfa] at hany
        simpa using hany
      have ih2 := ih hpw2 hany2
      rw [List.filter_cons, if_pos (by simp [bne, hfa])]
      simp only [List.length_cons]
      omega

theorem pairwise_filter_append_single {α β : Type} [BEq β] [LawfulBEq β] (l : List α)
    (f : α → β) (x : α) (hpw : l.Pairwise (fun a b => f a ≠ f b)) :
    ((l.filter (fun a => f a != f x)) ++ [x]).Pairwise (fun a b => f a ≠ f b) := by
  rw [List.pairwise_append]
  refine ⟨hpw.sublist (List.filter_sublist l), List.pairwise_singleton _ x, ?_⟩
  intro a ha b hb
  rw [List.mem_singleton] at hb
  subst hb
  have h2 := List.of_mem_filter ha
  simpa [bne] using h2

theorem pairwise_append_single_of_not_any {α β : Type} [BEq β] [LawfulBEq β] (l : List α)
    (f : α → β) (x : α) (hpw : l.Pairwise (fun a b => f a ≠ f b))
    (hany : l.any (fun a => f a == f x) = false) :
    (l ++ [x]).Pairwise (fun a b => f a ≠ f b) := by
  rw [List.pairwise_append]
  refine ⟨hpw, List.pairwise_singleton _ x, ?_⟩
  intro a ha b hb
  rw [List.mem_singleton] at hb
  subst hb
  intro heq
  rw [List.any_eq_false] at hany
  exact hany a ha (by simp [heq])

/-- Whether an outcome event that carries the error status also carries a
message starting with the given per-operation template (success outcomes
pass vacuously). -/
def hasTemplate (tpl : String) (e : OutcomeEvent) : Bool :=
  !(e.status == some "error") ||
    (match e.message with
     | some m => tpl.toList.isPrefixOf m.toList
     | none => false)

/-- Whether an outcome event is published under the given fixed kind and,
when it is an error outcome, carries the template-prefixed message. -/
def outcomeShapeOk (kind tpl : String) (e : OutcomeEvent) : Bool :=
  e.name == kind && hasTemplate tpl e

theorem outcomeShapeOk_ok (kind sessionId tpl : String) (p : EventPayload) :
    outcomeShapeOk kind tpl (okEvent kind sessionId p) = true := by
  simp [outcomeShapeOk, hasTemplate, okEvent]

theorem outcomeShapeOk_err (kind sessionId tpl e : String) :
    outcomeShapeOk kind tpl (errEvent kind sessionId (tpl ++ e)) = true := by
  simp [outcomeShapeOk, hasTemplate, errEvent, List.isPrefixOf_iff_prefix,
    String.toList, String.data_append]

theorem set_events_shape (sessionId : String) (ms : List WAMessage) (isLatest : Bool)
    (db : Db) :
    (set sessionId ms isLatest db).2.all (outcomeShapeOk "messages.upsert" setErrPrefix)
      = true := by
  unfold set
  split
  · simp [outcomeShapeOk_err]
  · split
    · simp [outcomeShapeOk_err]
    · simp [outcomeShapeOk_ok]

theorem upsertOne_events_shape (sessionId : String) (ty : UpsertType) (m : WAMessage)
    (db : Db) :
    (upsertOne sessionId ty m db).2.1.all (outcomeShapeOk "messages.upsert" upsertErrPrefix)
      = true := by
  simp only [upsertOne]
  cases m.key.id with
  | none => simp [outcomeShapeOk_err]
  | some mid =>
    cases h : upsertRowTx sessionId (jidNormalizedUser m.key.remoteJid) mid
        (transformPrisma m) db with
    | error e => simp [h, outcomeShapeOk_err]
    | ok db1 => simp [h, outcomeShapeOk_ok]

theorem upsertLoop_events_shape (sessionId : String) (ty : UpsertType)
    (ms : List WAMessage) (db : Db) :
    (upsertLoop sessionId ty ms db).2.1.all (outcomeShapeOk "messages.upsert" upsertErrPrefix)
      = true := by
  induction ms generalizing db with
  | nil => rfl
  | cons m rest ih =>
    simp [upsertLoop, List.all_append, upsertOne_events_shape, ih]

theorem updateOne_events_shape (sessionId : String) (it : MessageUpdateItem) (db : Db) :
    (updateOne sessionId it db).2.all (outcomeShapeOk "messages.update" updateErrPrefix)
      = true := by
  simp only [updateOne]
  split
  · simp [outcomeShapeOk_err]
  · simp
  · simp [outcomeShapeOk_ok]

theorem update_events_shape (sessionId : String) (items : List MessageUpdateItem)
    (db : Db) :
    (update sessionId items db).2.all (outcomeShapeOk "messages.update" updateErrPrefix)
      = true := by
  induction items generalizing db with
  | nil => rfl
  | cons it rest ih =>
    simp [update, List.all_append, updateOne_events_shape, ih]

theorem del_events_shape (sessionId : String) (item : DelInput) (db : Db) :
    (del sessionId item db).2.all (outcomeShapeOk "messages.delete" delErrPrefix)
      = true := by
  cases item with
  | all jid => simp [del, outcomeShapeOk_ok]
  | keys ks =>
    cases ks with
    | nil => simp [del, outcomeShapeOk_err]
    | cons k0 krest => simp [del, outcomeShapeOk_ok]

theorem updateReceiptOne_events_shape (sessionId : String) (it : ReceiptItem) (db : Db) :
    (updateReceiptOne sessionId it db).2.all
      (outcomeShapeOk "message-receipt.update" receiptErrPrefix) = true := by
  simp only [updateReceiptOne]
  split
  · simp [outcomeShapeOk_err]
  · simp
  · simp [outcomeShapeOk_ok]

theorem updateReceipt_events_shape (sessionId : String) (items : List ReceiptItem)
    (db : Db) :
    (updateReceipt sessionId items db).2.all
      (outcomeShapeOk "message-receipt.update" receiptErrPrefix) = true := by
  induction items generalizing db with
  | nil => rfl
  | cons it rest ih =>
    simp [updateReceipt, List.all_append, updateReceiptOne_events_shape, ih]

theorem updateReactionOne_events_shape (sessionId : String) (it : ReactionItem) (db : Db) :
    (updateReactionOne sessionId it db).2.all
      (outcomeShapeOk "messages.reaction" reactionErrPrefix) = true := by
  simp only [updateReactionOne]
  split
  · simp [outcomeShapeOk_err]
  · simp
  · simp [outcomeShapeOk_ok]

theorem updateReaction_events_shape (sessionId : String) (items : List ReactionItem)
    (db : Db) :
    (updateReaction sessionId items db).2.all
      (outcomeShapeOk "messages.reaction" reactionErrPrefix) = true := by
  induction items generalizing db with
  | nil => rfl
  | cons it rest ih =>
    simp [updateReaction, List.all_append, updateReactionOne_events_shape, ih]

/-- C9 (counterexample): the claim that the handler subscribed to
`messaging-history.set` publishes its outcome under the
`messaging-history.set` kind is false: at a concrete successful call the
handler publishes exactly one outcome, and it is not under that kind (it
is published under `messages.upsert`). -/
theorem set_outcome_kind_counterexample :
    (set "s9" [] true dbEmpty).2.all (fun e => e.name == "messaging-history.set") = false ∧
    (set "s9" [] true dbEmpty).2.length = 1 ∧
    (set "s9" [] true dbEmpty).2.all (fun e => e.name == "messages.upsert") = true := by
  decide

/-- C9 (amended): every handler publishes its outcomes — success and
error — under one fixed event kind, but the history loader's fixed kind is
`messages.upsert`, not the consumed `messaging-history.set`; the other
five handlers mirror their consumed kinds (`messages.upsert`,
`messages.update`, `messages.delete`, `message-receipt.update`,
`messages.reaction`).  Every error outcome carries status `"error"` and a
message prefixed by the fixed per-operation template. -/
theorem handlers_fixed_outcome_kinds (sessionId : String) (ms : List WAMessage)
    (isLatest : Bool) (ty : UpsertType) (items : List MessageUpdateItem)
    (ditem : DelInput) (ritems : List ReceiptItem) (xitems : List ReactionItem)
    (db : Db) :
    (set sessionId ms isLatest db).2.all
      (outcomeShapeOk "messages.upsert" setErrPrefix) = true ∧
    (upsert sessionId ty ms db).2.1.all
      (outcomeShapeOk "messages.upsert" upsertErrPrefix) = true ∧
    (update sessionId items db).2.all
      (outcomeShapeOk "messages.update" updateErrPrefix) = true ∧
    (del sessionId ditem db).2.all
      (outcomeShapeOk "messages.delete" delErrPrefix) = true ∧
    (updateReceipt sessionId ritems db).2.all
      (outcomeShapeOk "message-receipt.update" receiptErrPrefix) = true ∧
    (updateReaction sessionId xitems db).2.all
      (outcomeShapeOk "messages.reaction" reactionErrPrefix) = true := by
  refine ⟨set_events_shape sessionId ms isLatest db, ?_,
    update_events_shape sessionId items db, del_events_shape sessionId ditem db,
    updateReceipt_events_shape sessionId ritems db,
    updateReaction_events_shape sessionId xitems db⟩
  cases ty with
  | append => exact upsertLoop_events_shape sessionId UpsertType.append ms db
  | notify => exact upsertLoop_events_shape sessionId UpsertType.notify ms db
  | other => rfl

/-- C4: for a message row whose receipt entries are unique by `userJid`,
the receipt handler writes back a receipt list that is still unique by
`userJid`: a receipt whose user already appears replaces the existing
entry (exactly one entry for that user remains and the total count is
unchanged), a receipt from a new user is appended (the count grows by
one), and only the `userReceipt` column of the matched row is written —
every other column of every row is untouched, and the per-item success
outcome is published. -/
theorem updateReceipt_replace_or_append (sessionId j i : String) (key : WAMessageKey)
    (rcpt : MessageUserReceipt) (row : MessageRow) (db db2 : Db)
    (evs : List OutcomeEvent)
    (hkj : key.remoteJid = some j) (hki : key.id = some i)
    (hfilter : db.messages.filter (keyMatches sessionId (some j) (some i)) = [row])
    (h : updateReceipt sessionId [{ key := key, receipt := rcpt }] db = (db2, evs)) :
    db2.messages = db.messages.map (fun r =>
      if keyMatches sessionId (some j) (some i) r
      then { r with cols := { r.cols with
              userReceipt := some (applyReceipt (row.cols.userReceipt.getD []) rcpt) } }
      else r) ∧
    evs = [okEvent "message-receipt.update" sessionId (EventPayload.receiptOf key rcpt)] ∧
    (uniqueBy MessageUserReceipt.userJid (row.cols.userReceipt.getD []) →
      uniqueBy MessageUserReceipt.userJid (applyReceipt (row.cols.userReceipt.getD []) rcpt)) ∧
    ((row.cols.userReceipt.getD []).any (fun m => m.userJid == rcpt.userJid) = true →
      (applyReceipt (row.cols.userReceipt.getD []) rcpt).filter
          (fun m => m.userJid == rcpt.userJid) = [rcpt] ∧
      (uniqueBy MessageUserReceipt.userJid (row.cols.userReceipt.getD []) →
        (applyReceipt (row.cols.userReceipt.getD []) rcpt).length
          = (row.cols.userReceipt.getD []).length)) ∧
    ((row.cols.userReceipt.getD []).any (fun m => m.userJid == rcpt.userJid) = false →
      applyReceipt (row.cols.userReceipt.getD []) rcpt
        = row.cols.userReceipt.getD [] ++ [rcpt]) := by
  have hfind : db.findFirst sessionId key.remoteJid key.id = some row := by
    rw [hkj, hki]
    unfold Db.findFirst
    rw [find?_eq_filter_head, hfilter]
    rfl
  have hasK : db.hasKey sessionId j i = true :=
    any_eq_true_of_filter_singleton _ _ row hfilter
  have hone : updateReceiptOne sessionId { key := key, receipt := rcpt } db =
      ({ db with messages := db.messages.map (fun r =>
          if keyMatches sessionId (some j) (some i) r
          then { r with cols := { r.cols with
                  userReceipt := some (applyReceipt (row.cols.userReceipt.getD []) rcpt) } }
          else r) },
       [okEvent "message-receipt.update" sessionId (EventPayload.receiptOf key rcpt)]) := by
    simp only [updateReceiptOne, updateReceiptOneTx]
    rw [hfind]
    simp only [hkj, hki, Db.updateUnique]
    rw [if_pos hasK]
  have hloop : updateReceipt sessionId [{ key := key, receipt := rcpt }] db =
      ({ db with messages := db.messages.map (fun r =>
          if keyMatches sessionId (some j) (some i) r
          then { r with cols := { r.cols with
                  userReceipt := some (applyReceipt (row.cols.userReceipt.getD []) rcpt) } }
          else r) },
       [okEvent "message-receipt.update" sessionId (EventPayload.receiptOf key rcpt)]) := by
    simp only [updateReceipt]
    rw [hone]
    simp
  rw [hloop] at h
  injection h with h1 h2
  refine ⟨by rw [← h1], h2.symm, ?_, ?_, ?_⟩
  · intro hu
    unfold applyReceipt
    split
    · exact pairwise_filter_append_single _ MessageUserReceipt.userJid rcpt hu
    · rename_i hany
      rw [Bool.not_eq_true] at hany
      exact pairwise_append_single_of_not_any _ MessageUserReceipt.userJid rcpt hu hany
  · intro hany
    constructor
    · unfold applyReceipt
      rw [if_pos hany, List.filter_append]
      rw [filter_bne_filter_beq_nil _ MessageUserReceipt.userJid rcpt.userJid]
      simp
    · intro hu
      unfold applyReceipt
      rw [if_pos hany]
      rw [List.length_append]
      have := filter_bne_length _ MessageUserReceipt.userJid rcpt.userJid hu hany
      simp only [List.length_singleton]
      omega
  · intro hany
    unfold applyReceipt
    rw [if_neg (by simp [hany])]

/-- The stored row of the C4 witness: one receipt from user u1. -/
def c4Row : MessageRow :=
  { pkId := 1, sessionId := "s4", remoteJid := "a@s", id := "m1",
    cols := { userReceipt := some [{ userJid := some "u1", receiptTimestamp := some 5 }] } }

/-- The store of the C4 witness. -/
def c4Db : Db := { messages := [c4Row], nextPk := 2, chats := [] }

/-- The event key of the C4 witness. -/
def c4Key : WAMessageKey := { remoteJid := some "a@s", id := some "m1" }

/-- The incoming receipt of the C4 witness: a newer receipt from the same
user u1 (the replace case). -/
def c4Rcpt : MessageUserReceipt := { userJid := some "u1", readTimestamp := some 9 }

/-- Witness for C4 at a concrete input. -/
theorem updateReceipt_replace_or_append_witness :
    (updateReceipt "s4" [{ key := c4Key, receipt := c4Rcpt }] c4Db).1.messages =
      c4Db.messages.map (fun r =>
        if keyMatches "s4" (some "a@s") (some "m1") r
        then { r with cols := { r.cols with
                userReceipt := some (applyReceipt (c4Row.cols.userReceipt.getD []) c4Rcpt) } }
        else r) ∧
    (updateReceipt "s4" [{ key := c4Key, receipt := c4Rcpt }] c4Db).2 =
      [okEvent "message-receipt.update" "s4" (EventPayload.receiptOf c4Key c4Rcpt)] ∧
    (uniqueBy MessageUserReceipt.userJid (c4Row.cols.userReceipt.getD []) →
      uniqueBy MessageUserReceipt.userJid
        (applyReceipt (c4Row.cols.userReceipt.getD []) c4Rcpt)) ∧
    ((c4Row.cols.userReceipt.getD []).any (fun m => m.userJid == c4Rcpt.userJid) = true →
      (applyReceipt (c4Row.cols.userReceipt.getD []) c4Rcpt).filter
          (fun m => m.userJid == c4Rcpt.userJid) = [c4Rcpt] ∧
      (uniqueBy MessageUserReceipt.userJid (c4Row.cols.userReceipt.getD []) →
        (applyReceipt (c4Row.cols.userReceipt.getD []) c4Rcpt).length
          = (c4Row.cols.userReceipt.getD []).length)) ∧
    ((c4Row.cols.userReceipt.getD []).any (fun m => m.userJid == c4Rcpt.userJid) = false →
      applyReceipt (c4Row.cols.userReceipt.getD []) c4Rcpt
        = c4Row.cols.userReceipt.getD [] ++ [c4Rcpt]) :=
  updateReceipt_replace_or_append "s4" "a@s" "m1" c4Key c4Rcpt c4Row c4Db
    (updateReceipt "s4" [{ key := c4Key, receipt := c4Rcpt }] c4Db).1
    (updateReceipt "s4" [{ key := c4Key, receipt := c4Rcpt }] c4Db).2
    rfl rfl (by decide) rfl

/-- C5: the reaction handler first removes every stored reaction whose
author identity (the `"me"` sentinel for a self-authored reaction key,
else the participant id or chat id) equals the incoming reaction's author,
then adds the incoming reaction only when its text is non-empty.  Hence
after the write the matched row's reaction list holds the incoming
reaction exactly when its text was truthy (so an empty-text reaction from
author A leaves zero reactions from A), reactions from other authors are
exactly as before, at most one reaction per author is kept when the stored
list was author-unique, and only the `reactions` column of the matched row
is written. -/
theorem updateReaction_retraction (sessionId j i : String) (key : WAMessageKey)
    (rx : WAReaction) (row : MessageRow) (db db2 : Db) (evs : List OutcomeEvent)
    (hkj : key.remoteJid = some j) (hki : key.id = some i)
    (hfilter : db.messages.filter (keyMatches sessionId (some j) (some i)) = [row])
    (h : updateReaction sessionId [{ key := key, reaction := rx }] db = (db2, evs)) :
    db2.messages = db.messages.map (fun r =>
      if keyMatches sessionId (some j) (some i) r
      then { r with cols := { r.cols with
              reactions := some (applyReactionList (row.cols.reactions.getD []) rx) } }
      else r) ∧
    evs = [okEvent "messages.reaction" sessionId (EventPayload.reactionOf key rx)] ∧
    (applyReactionList (row.cols.reactions.getD []) rx).filter
        (fun r => getKeyAuthor r.key == getKeyAuthor rx.key)
      = (if jsTruthy rx.text then [rx] else []) ∧
    (applyReactionList (row.cols.reactions.getD []) rx).filter
        (fun r => getKeyAuthor r.key != getKeyAuthor rx.key)
      = (row.cols.reactions.getD []).filter
          (fun r => getKeyAuthor r.key != getKeyAuthor rx.key) ∧
    (uniqueBy (fun r => getKeyAuthor r.key) (row.cols.reactions.getD []) →
      uniqueBy (fun r => getKeyAuthor r.key)
        (applyReactionList (row.cols.reactions.getD []) rx)) := by
  have hfind : db.findFirst sessionId key.remoteJid key.id = some row := by
    rw [hkj, hki]
    unfold Db.findFirst
    rw [find?_eq_filter_head, hfilter]
    rfl
  have hasK : db.hasKey sessionId j i = true :=
    any_eq_true_of_filter_singleton _ _ row hfilter
  have hone : updateReactionOne sessionId { key := key, reaction := rx } db =
      ({ db with messages := db.messages.map (fun r =>
          if keyMatches sessionId (some j) (some i) r
          then { r with cols := { r.cols with
                  reactions := some (applyReactionList (row.cols.reactions.getD []) rx) } }
          else r) },
       [okEvent "messages.reaction" sessionId (EventPayload.reactionOf key rx)]) := by
    simp only [updateReactionOne, updateReactionOneTx]
    rw [hfind]
    simp only [hkj, hki, Db.updateUnique]
    rw [if_pos hasK]
  have hloop : updateReaction sessionId [{ key := key, reaction := rx }] db =
      ({ db with messages := db.messages.map (fun r =>
          if keyMatches sessionId (some j) (some i) r
          then { r with cols := { r.cols with
                  reactions := some (applyReactionList (row.cols.reactions.getD []) rx) } }
          else r) },
       [okEvent "messages.reaction" sessionId (EventPayload.reactionOf key rx)]) := by
    simp only [updateReaction]
    rw [hone]
    simp
  rw [hloop] at h
  injection h with h1 h2
  refine ⟨by rw [← h1], h2.symm, ?_, ?_, ?_⟩
  · simp only [applyReactionList]
    cases ht : jsTruthy rx.text with
    | true =>
      rw [if_pos rfl, List.filter_append]
      rw [filter_bne_filter_beq_nil (row.cols.reactions.getD [])
        (fun r => getKeyAuthor r.key) (getKeyAuthor rx.key)]
      simp [List.filter_cons]
    | false =>
      rw [if_neg (by simp)]
      rw [filter_bne_filter_beq_nil (row.cols.reactions.getD [])
        (fun r => getKeyAuthor r.key) (getKeyAuthor rx.key)]
      simp
  · simp only [applyReactionList]
    cases ht : jsTruthy rx.text with
    | true =>
      rw [if_pos rfl, List.filter_append]
      rw [filter_filter_self]
      simp [List.filter_cons]
    | false =>
      rw [if_neg (by simp)]
      rw [filter_filter_self]
  · intro hu
    simp only [applyReactionList]
    cases ht : jsTruthy rx.text with
    | true =>
      rw [if_pos rfl]
      exact pairwise_filter_append_single (row.cols.reactions.getD [])
        (fun r => getKeyAuthor r.key) rx hu
    | false =>
      rw [if_neg (by simp)]
      exact List.Pairwise.sublist (List.filter_sublist _) hu

/-- The stored row of the C5 witness: one reaction by the participant
author u1. -/
def c5Stored : WAReaction :=
  { key := some { fromMe := some false, participant := some "u1@s" }, text := some "x" }

def c5Row : MessageRow :=
  { pkId := 1, sessionId := "s5", remoteJid := "a@s", id := "m1",
    cols := { reactions := some [c5Stored] } }

/-- The store of the C5 witness. -/
def c5Db : Db := { messages := [c5Row], nextPk := 2, chats := [] }

/-- The event key of the C5 witness. -/
def c5Key : WAMessageKey := { remoteJid := some "a@s", id := some "m1" }

/-- The incoming reaction of the C5 witness: an empty-text retraction by
the same author u1. -/
def c5Rx : WAReaction :=
  { key := some { fromMe := some false, participant := some "u1@s" }, text := some "" }

/-- Witness for C5 at a concrete input. -/
theorem updateReaction_retraction_witness :
    (updateReaction "s5" [{ key := c5Key, reaction := c5Rx }] c5Db).1.messages =
      c5Db.messages.map (fun r =>
        if keyMatches "s5" (some "a@s") (some "m1") r
        then { r with cols := { r.cols with
                reactions := some (applyReactionList (c5Row.cols.reactions.getD []) c5Rx) } }
        else r) ∧
    (updateReaction "s5" [{ key := c5Key, reaction := c5Rx }] c5Db).2 =
      [okEvent "messages.reaction" "s5" (EventPayload.reactionOf c5Key c5Rx)] ∧
    (applyReactionList (c5Row.cols.reactions.getD []) c5Rx).filter
        (fun r => getKeyAuthor r.key == getKeyAuthor c5Rx.key)
      = (if jsTruthy c5Rx.text then [c5Rx] else []) ∧
    (applyReactionList (c5Row.cols.reactions.getD []) c5Rx).filter
        (fun r => getKeyAuthor r.key != getKeyAuthor c5Rx.key)
      = (c5Row.cols.reactions.getD []).filter
          (fun r => getKeyAuthor r.key != getKeyAuthor c5Rx.key) ∧
    (uniqueBy (fun r => getKeyAuthor r.key) (c5Row.cols.reactions.getD []) →
      uniqueBy (fun r => getKeyAuthor r.key)
        (applyReactionList (c5Row.cols.reactions.getD []) c5Rx)) :=
  updateReaction_retraction "s5" "a@s" "m1" c5Key c5Rx c5Row c5Db
    (updateReaction "s5" [{ key := c5Key, reaction := c5Rx }] c5Db).1
    (updateReaction "s5" [{ key := c5Key, reaction := c5Rx }] c5Db).2
    rfl rfl (by decide) rfl

/-- The fields of the second write win: every field the patch carries ends
up in the final columns with the patch's value. -/
def colsSecondWins (p final : PayloadCols) : Prop :=
  (∀ v, p.key = some v → final.key = some v) ∧
  (∀ v, p.messageTimestamp = some v → final.messageTimestamp = some v) ∧
  (∀ v, p.content = some v → final.content = some v) ∧
  (∀ v, p.status = some v → final.status = some v) ∧
  (∀ v, p.userReceipt = some v → final.userReceipt = some v) ∧
  (∀ v, p.reactions = some v → final.reactions = some v)

theorem opt_orElse_self {α : Type} (x : Option α) : (x <|> x) = x := by
  cases x <;> rfl

theorem applyColsPatch_wins (old p : PayloadCols) :
    colsSecondWins p (applyColsPatch old p) := by
  refine ⟨?_, ?_, ?_, ?_, ?_, ?_⟩ <;> (intro v hv; simp [applyColsPatch, hv])

theorem applyColsPatch_self (c : PayloadCols) : applyColsPatch c c = c := by
  cases c with
  | mk k mt ct st ur rx =>
    simp only [applyColsPatch, PayloadCols.mk.injEq]
    exact ⟨opt_orElse_self k, opt_orElse_self mt, opt_orElse_self ct,
      opt_orElse_self st, opt_orElse_self ur, opt_orElse_self rx⟩

theorem filter_eq_nil_of_any_false {α : Type} (l : List α) (p : α → Bool)
    (h : l.any p = false) : l.filter p = [] := by
  rw [List.any_eq_false] at h
  exact List.filter_eq_nil_iff.mpr (fun a ha => h a ha)

/-- The per-row rewrite of an update statement never changes which rows
the composite filter matches. -/
theorem keyMatches_if_update_pres (sessionId jid mid : String)
    (g : MessageRow → PayloadCols) :
    ∀ r, keyMatches sessionId (some jid) (some mid)
        (if keyMatches sessionId (some jid) (some mid) r then { r with cols := g r } else r)
      = keyMatches sessionId (some jid) (some mid) r := by
  intro r
  cases hr : keyMatches sessionId (some jid) (some mid) r with
  | true => simp [keyMatches_set_cols, hr]
  | false => simp [hr]

/-- The upsert statement when the composite key already exists: update in
place through the patch semantics. -/
theorem upsertRowTx_update (sessionId jid mid : String) (data : PayloadCols) (db : Db)
    (hk : db.hasKey sessionId jid mid = true) :
    upsertRowTx sessionId jid mid data db = Except.ok { db with
      messages := db.messages.map (fun r =>
        if keyMatches sessionId (some jid) (some mid) r
        then { r with cols := applyColsPatch r.cols data } else r) } := by
  unfold upsertRowTx
  rw [if_pos hk]

/-- The upsert statement when the composite key is absent: create a new
row with the next surrogate key. -/
theorem upsertRowTx_create (sessionId jid mid : String) (data : PayloadCols) (db : Db)
    (hk : db.hasKey sessionId jid mid = false) (hpk : db.hasPk db.nextPk = false) :
    upsertRowTx sessionId jid mid data db = Except.ok { db with
      messages := db.messages ++
        [{ pkId := db.nextPk, sessionId := sessionId, remoteJid := jid,
           id := mid, cols := data }],
      nextPk := db.nextPk + 1 } := by
  simp only [upsertRowTx, Db.create]
  rw [if_neg (by simp [hk])]
  rw [if_neg (by simp [hk])]
  rw [if_neg (by simp [hpk])]

/-- The state after one upsert iteration whose statement succeeded. -/
theorem upsertOne_state (sessionId : String) (ty : UpsertType) (m : WAMessage)
    (db : Db) (jid mid : String) (hjid : jidNormalizedUser m.key.remoteJid = jid)
    (hid : m.key.id = some mid) (db1 : Db)
    (htx : upsertRowTx sessionId jid mid (transformPrisma m) db = Except.ok db1) :
    (upsertOne sessionId ty m db).1 = db1 := by
  simp only [upsertOne, hid, hjid, htx]

/-- C2: two upsert events for the same composite key `(sessionId,
remoteJid, id)` (same normalized chat id and message id), applied by the
handler one after the other, leave exactly one row for that composite key;
every field carried by the second event's transformed data wins in the
final row (the second application updates in place when the row exists and
inserts when it is absent, and Prisma skips members the data object does
not carry); and when the two events are the same event applied to a store
without the row, the final row's columns are exactly the event's
transformed data (idempotence). -/
theorem upsert_idempotent_composite_key (sessionId : String) (ty : UpsertType)
    (m1 m2 : WAMessage) (db : Db) (jid mid : String)
    (hty : ty = UpsertType.append ∨ ty = UpsertType.notify)
    (hjid1 : jidNormalizedUser m1.key.remoteJid = jid)
    (hjid2 : jidNormalizedUser m2.key.remoteJid = jid)
    (hid1 : m1.key.id = some mid) (hid2 : m2.key.id = some mid)
    (huniq : (db.messages.filter (keyMatches sessionId (some jid) (some mid))).length ≤ 1)
    (hpk : db.hasPk db.nextPk = false)
    (db1 db2 : Db)
    (h1 : (upsert sessionId ty [m1] db).1 = db1)
    (h2 : (upsert sessionId ty [m2] db1).1 = db2) :
    (db2.messages.filter (keyMatches sessionId (some jid) (some mid))).length = 1 ∧
    (∀ r ∈ db2.messages.filter (keyMatches sessionId (some jid) (some mid)),
      colsSecondWins (transformPrisma m2) r.cols) ∧
    (db.messages.filter (keyMatches sessionId (some jid) (some mid)) = [] → m1 = m2 →
      ∀ r ∈ db2.messages.filter (keyMatches sessionId (some jid) (some mid)),
        r.cols = transformPrisma m2) := by
  have hsingle : ∀ (m : WAMessage) (dbx : Db),
      (upsert sessionId ty [m] dbx).1 = (upsertOne sessionId ty m dbx).1 := by
    intro m dbx
    rcases hty with hh | hh <;> (rw [hh]; simp [upsert, upsertLoop])
  cases hk : db.hasKey sessionId jid mid with
  | false =>
    have htx1 := upsertRowTx_create sessionId jid mid (transformPrisma m1) db hk hpk
    have hone1 := upsertOne_state sessionId ty m1 db jid mid hjid1 hid1 _ htx1
    rw [hsingle] at h1
    rw [hone1] at h1
    have hfdb : db.messages.filter (keyMatches sessionId (some jid) (some mid)) = [] :=
      filter_eq_nil_of_any_false _ _ hk
    have hrow1 : keyMatches sessionId (some jid) (some mid)
        { pkId := db.nextPk, sessionId := sessionId, remoteJid := jid, id := mid,
          cols := transformPrisma m1 } = true := by
      simp [keyMatches, optFilter]
    have hm1 : db1.messages = db.messages ++
        [{ pkId := db.nextPk, sessionId := sessionId, remoteJid := jid, id := mid,
           cols := transformPrisma m1 }] := by
      rw [← h1]
    have hk2 : db1.hasKey sessionId jid mid = true := by
      unfold Db.hasKey
      rw [hm1, List.any_append]
      simp [hrow1]
    have htx2 := upsertRowTx_update sessionId jid mid (transformPrisma m2) db1 hk2
    have hone2 := upsertOne_state sessionId ty m2 db1 jid mid hjid2 hid2 _ htx2
    rw [hsingle] at h2
    rw [hone2] at h2
    have hm2 : db2.messages = db1.messages.map (fun r =>
        if keyMatches sessionId (some jid) (some mid) r
        then { r with cols := applyColsPatch r.cols (transformPrisma m2) } else r) := by
      rw [← h2]
    have hfB : db2.messages.filter (keyMatches sessionId (some jid) (some mid)) =
        [{ pkId := db.nextPk, sessionId := sessionId, remoteJid := jid, id := mid,
           cols := applyColsPatch (transformPrisma m1) (transformPrisma m2) }] := by
      rw [hm2, filter_map_comm db1.messages _ _
        (keyMatches_if_update_pres sessionId jid mid _), hm1, List.filter_append, hfdb]
      simp [List.filter_cons, hrow1]
    refine ⟨by rw [hfB]; rfl, ?_, ?_⟩
    · intro r hr
      rw [hfB, List.mem_singleton] at hr
      subst hr
      exact applyColsPatch_wins (transformPrisma m1) (transformPrisma m2)
    · intro _ heq r hr
      subst heq
      rw [hfB, List.mem_singleton] at hr
      subst hr
      exact applyColsPatch_self _
  | true =>
    have hne : db.messages.filter (keyMatches sessionId (some jid) (some mid)) ≠ [] := by
      intro he
      have hf := any_eq_false_of_filter_nil _ _ he
      unfold Db.hasKey at hk
      rw [hk] at hf
      cases hf
    have hlen1 : (db.messages.filter (keyMatches sessionId (some jid) (some mid))).length
        = 1 := by
      have hpos : 0 < (db.messages.filter (keyMatches sessionId (some jid) (some mid))).length :=
        List.length_pos.mpr hne
      omega
    obtain ⟨r0, hf0⟩ := List.length_eq_one.mp hlen1
    have hkr0 : keyMatches sessionId (some jid) (some mid) r0 = true := by
      have hmem : r0 ∈ db.messages.filter (keyMatches sessionId (some jid) (some mid)) := by
        rw [hf0]
        exact List.mem_singleton.mpr rfl
      exact List.of_mem_filter hmem
    have htx1 := upsertRowTx_update sessionId jid mid (transformPrisma m1) db hk
    have hone1 := upsertOne_state sessionId ty m1 db jid mid hjid1 hid1 _ htx1
    rw [hsingle] at h1
    rw [hone1] at h1
    have hm1 : db1.messages = db.messages.map (fun r =>
        if keyMatches sessionId (some jid) (some mid) r
        then { r with cols := applyColsPatch r.cols (transformPrisma m1) } else r) := by
      rw [← h1]
    have hfA : db1.messages.filter (keyMatches sessionId (some jid) (some mid)) =
        [{ r0 with cols := applyColsPatch r0.cols (transformPrisma m1) }] := by
      rw [hm1, filter_map_comm db.messages _ _
        (keyMatches_if_update_pres sessionId jid mid _), hf0]
      simp [hkr0]
    have hk2 : db1.hasKey sessionId jid mid = true :=
      any_eq_true_of_filter_singleton _ _ _ hfA
    have htx2 := upsertRowTx_update sessionId jid mid (transformPrisma m2) db1 hk2
    have hone2 := upsertOne_state sessionId ty m2 db1 jid mid hjid2 hid2 _ htx2
    rw [hsingle] at h2
    rw [hone2] at h2
    have hm2 : db2.messages = db1.messages.map (fun r =>
        if keyMatches sessionId (some jid) (some mid) r
        then { r with cols := applyColsPatch r.cols (transformPrisma m2) } else r) := by
      rw [← h2]
    have hfB : db2.messages.filter (keyMatches sessionId (some jid) (some mid)) =
        [{ r0 with cols := applyColsPatch (applyColsPatch r0.cols (transformPrisma m1)) (transformPrisma m2) }] := by
      rw [hm2, filter_map_comm db1.messages _ _
        (keyMatches_if_update_pres sessionId jid mid _), hfA]
      simp [keyMatches_set_cols, hkr0]
    refine ⟨by rw [hfB]; rfl, ?_, ?_⟩
    · intro r hr
      rw [hfB, List.mem_singleton] at hr
      subst hr
      exact applyColsPatch_wins _ _
    · intro hnil _ r hr
      rw [hnil] at hf0
      cases hf0

/-- Concrete message of the C2 witness. -/
def c2Msg : WAMessage :=
  { key := { remoteJid := some "u@s", id := some "mm" }, content := some "hi" }

/-- Witness for C2 at a concrete input: the same event applied twice to an
empty store. -/
theorem upsert_idempotent_composite_key_witness :
    (((upsert "s2" UpsertType.append [c2Msg]
        (upsert "s2" UpsertType.append [c2Msg] dbEmpty).1).1).messages.filter
      (keyMatches "s2" (some "u@s") (some "mm"))).length = 1 ∧
    (∀ r ∈ ((upsert "s2" UpsertType.append [c2Msg]
        (upsert "s2" UpsertType.append [c2Msg] dbEmpty).1).1).messages.filter
      (keyMatches "s2" (some "u@s") (some "mm")),
      colsSecondWins (transformPrisma c2Msg) r.cols) ∧
    (dbEmpty.messages.filter (keyMatches "s2" (some "u@s") (some "mm")) = [] →
      c2Msg = c2Msg →
      ∀ r ∈ ((upsert "s2" UpsertType.append [c2Msg]
          (upsert "s2" UpsertType.append [c2Msg] dbEmpty).1).1).messages.filter
        (keyMatches "s2" (some "u@s") (some "mm")),
        r.cols = transformPrisma c2Msg) :=
  upsert_idempotent_composite_key "s2" UpsertType.append c2Msg c2Msg dbEmpty "u@s" "mm"
    (Or.inl rfl) (by decide) (by decide) rfl rfl (by decide) rfl
    (upsert "s2" UpsertType.append [c2Msg] dbEmpty).1
    (upsert "s2" UpsertType.append [c2Msg]
      (upsert "s2" UpsertType.append [c2Msg] dbEmpty).1).1
    rfl rfl

theorem find?_append_none {α : Type} (l1 l2 : List α) (p : α → Bool)
    (h : l1.find? p = none) : (l1 ++ l2).find? p = l2.find? p := by
  induction l1 with
  | nil => rfl
  | cons a t ih =>
    cases hpa : p a with
    | true =>
      rw [List.find?_cons_of_pos t hpa] at h
      exact Option.noConfusion h
    | false =>
      rw [List.find?_cons_of_neg t (by simp [hpa])] at h
      rw [List.cons_append, List.find?_cons_of_neg _ (by simp [hpa])]
      exact ih h

/-- The message of the C3 counterexample: its raw chat id carries a device
suffix, so the upsert handler stores the row under the normalized id while
the stored key substructure keeps the raw id. -/
def c3Msg : WAMessage :=
  { key := { remoteJid := some "u:1@s", id := some "m1" }, status := some 1 }

/-- The store after upserting the device-suffixed message. -/
def c3Db1 : Db := (upsert "s3" UpsertType.append [c3Msg] dbEmpty).1

/-- The update event key of the C3 counterexample: it addresses the row by
its stored composite columns (the normalized chat id). -/
def c3Key : WAMessageKey := { remoteJid := some "u@s", id := some "m1" }

/-- A delta touching only the `status` field. -/
def c3Delta : MessageDelta := { status := some 3 }

/-- The store after the update recreates the row from its stored key. -/
def c3Db2 : Db := (update "s3" [{ update := c3Delta, key := c3Key }] c3Db1).1

/-- C3 (counterexample): the claim that after the update handler's
delete+recreate a point lookup by the row's composite key still succeeds
is false.  A row created by the upsert handler from a device-suffixed JID
has composite column `remoteJid = "u@s"` (normalized) but stored key
substructure `remoteJid = "u:1@s"` (raw); an update whose delta touches
only `status` re-derives the composite columns from the stored key, so the
recreated row lands at `remoteJid = "u:1@s"` and the lookup by the
original composite key `("s3", "u@s", "m1")` now fails. -/
theorem update_lookup_counterexample :
    (c3Db1.findFirst "s3" (some "u@s") (some "m1")).isSome = true ∧
    c3Db2.findFirst "s3" (some "u@s") (some "m1") = none ∧
    (c3Db2.findFirst "s3" (some "u:1@s") (some "m1")).isSome = true := by
  decide

/-- C3 (amended): for an existing row whose stored key substructure agrees
with its composite columns, an update delta that does not touch the key
substructure produces — through the delete+recreate inside one
transaction — a row that is still found by a point lookup at the same
composite key `(sessionId, remoteJid, id)`, with its `pkId` carried over,
every field the delta carries set to the delta's value and every other
field unchanged; and a failure of the transaction body rolls the delete
and the insert back together, leaving the store exactly as before that
item (the row is never left deleted without a replacement). -/
theorem update_delta_merge_preserves_row (sessionId j i : String) (key : WAMessageKey)
    (d : MessageDelta) (row : MessageRow) (k0 : WAMessageKey) (db db2 : Db)
    (evs : List OutcomeEvent)
    (hkj : key.remoteJid = some j) (hki : key.id = some i)
    (hfilter : db.messages.filter (keyMatches sessionId (some j) (some i)) = [row])
    (hpkuniq : db.messages.Pairwise (fun a b => a.pkId ≠ b.pkId))
    (hk0 : row.cols.key = some k0)
    (hk0r : k0.remoteJid = some row.remoteJid) (hk0i : k0.id = some row.id)
    (hdk : d.key = none)
    (h : update sessionId [{ update := d, key := key }] db = (db2, evs)) :
    db2.findFirst sessionId (some j) (some i) =
      some { row with cols := mergedCols row.cols d } ∧
    evs = [okEvent "messages.update" sessionId (EventPayload.updated
      { pkId := some row.pkId, sessionId := sessionId, remoteJid := row.remoteJid,
        id := row.id, cols := mergedCols row.cols d })] ∧
    (mergedCols row.cols d).key = row.cols.key ∧
    (d.status = none → (mergedCols row.cols d).status = row.cols.status) ∧
    (∀ v, d.status = some v → (mergedCols row.cols d).status = some v) ∧
    (d.content = none → (mergedCols row.cols d).content = row.cols.content) ∧
    (∀ v, d.content = some v → (mergedCols row.cols d).content = some v) ∧
    (d.messageTimestamp = none →
      (mergedCols row.cols d).messageTimestamp = row.cols.messageTimestamp) ∧
    (∀ v, d.messageTimestamp = some v →
      (mergedCols row.cols d).messageTimestamp = some v) ∧
    (d.userReceipt = none → (mergedCols row.cols d).userReceipt = row.cols.userReceipt) ∧
    (∀ v, d.userReceipt = some v → (mergedCols row.cols d).userReceipt = some v) ∧
    (d.reactions = none → (mergedCols row.cols d).reactions = row.cols.reactions) ∧
    (∀ v, d.reactions = some v → (mergedCols row.cols d).reactions = some v) ∧
    (∀ (it : MessageUpdateItem) (dbx : Db) (e : String),
      updateOneTx sessionId it.key it.update dbx = Except.error e →
      updateOne sessionId it dbx =
        (dbx, [errEvent "messages.update" sessionId (updateErrPrefix ++ e)])) := by
  have hkrow : keyMatches sessionId (some j) (some i) row = true :=
    List.of_mem_filter (by rw [hfilter]; exact List.mem_singleton.mpr rfl)
  have hunpack : (i = row.id ∧ j = row.remoteJid) ∧ row.sessionId = sessionId := by
    simpa [keyMatches, optFilter] using hkrow
  obtain ⟨⟨hieq, hjeq⟩, hsess⟩ := hunpack
  subst hieq
  subst hjeq
  have hfind : db.findFirst sessionId key.remoteJid key.id = some row := by
    rw [hkj, hki]
    unfold Db.findFirst
    rw [find?_eq_filter_head, hfilter]
    rfl
  have hasK : db.hasKey sessionId row.remoteJid row.id = true :=
    any_eq_true_of_filter_singleton _ _ row hfilter
  have hck : (mergedCols row.cols d).key = some k0 := by
    simp [mergedCols, hdk, hk0]
  have hnk : Db.hasKey { db with messages := db.messages.filter (fun r =>
      !(keyMatches sessionId (some row.remoteJid) (some row.id) r)) }
      sessionId row.remoteJid row.id = false := by
    unfold Db.hasKey
    exact any_eq_false_of_filter_nil _ _ (filter_not_filter_self _ _)
  have hrowmem : row ∈ db.messages :=
    List.mem_of_mem_filter (l := db.messages)
      (p := keyMatches sessionId (some row.remoteJid) (some row.id))
      (by rw [hfilter]; exact List.mem_singleton.mpr rfl)
  have hnpk : Db.hasPk { db with messages := db.messages.filter (fun r =>
      !(keyMatches sessionId (some row.remoteJid) (some row.id) r)) } row.pkId = false := by
    unfold Db.hasPk
    rw [List.any_eq_false]
    intro r hr hbeq
    have hrmem := List.mem_of_mem_filter hr
    have hrk := List.of_mem_filter hr
    have hrr : r ≠ row := by
      intro he
      rw [he] at hrk
      simp [hkrow] at hrk
    have hpkeq : r.pkId = row.pkId := by simpa using hbeq
    exact List.Pairwise.forall (fun a b hab => hab.symm) hpkuniq hrmem hrowmem hrr hpkeq
  have hupd : update sessionId [{ update := d, key := key }] db =
      ({ db with messages := db.messages.filter (fun r =>
          !(keyMatches sessionId (some row.remoteJid) (some row.id) r)) ++
          [{ pkId := row.pkId, sessionId := sessionId, remoteJid := row.remoteJid,
             id := row.id, cols := mergedCols row.cols d }] },
       [okEvent "messages.update" sessionId (EventPayload.updated
         { pkId := some row.pkId, sessionId := sessionId, remoteJid := row.remoteJid,
           id := row.id, cols := mergedCols row.cols d })]) := by
    simp only [update, updateOne, updateOneTx]
    rw [hfind]
    simp only [hkj, hki, Db.deleteUnique]
    rw [if_pos hasK]
    have hbid : ((some k0).bind fun a => a.id) = some row.id := by simp [hk0i]
    have hbjid : ((some k0).bind fun a => a.remoteJid) = some row.remoteJid := by
      simp [hk0r]
    simp only [hck, hbid, hbjid, Db.create]
    rw [if_neg (by simp [hnk])]
    rw [if_neg (by simp [hnpk])]
    simp
  rw [hupd] at h
  injection h with h1 h2
  refine ⟨?_, h2.symm, by simp [mergedCols, hdk],
    (fun hd => by simp [mergedCols, hd]), (fun v hd => by simp [mergedCols, hd]),
    (fun hd => by simp [mergedCols, hd]), (fun v hd => by simp [mergedCols, hd]),
    (fun hd => by simp [mergedCols, hd]), (fun v hd => by simp [mergedCols, hd]),
    (fun hd => by simp [mergedCols, hd]), (fun v hd => by simp [mergedCols, hd]),
    (fun hd => by simp [mergedCols, hd]), (fun v hd => by simp [mergedCols, hd]), ?_⟩
  · rw [← h1]
    simp only [Db.findFirst]
    rw [find?_append_none _ _ _
      (by rw [find?_eq_filter_head, filter_not_filter_self]; rfl)]
    rw [List.find?_cons_of_pos _ (by simp [keyMatches, optFilter])]
    rw [hsess]
  · intro it dbx e he
    simp [updateOne, he]

/-- The stored key of the C3 witness row, equal to its composite columns. -/
def c3wKey0 : WAMessageKey := { remoteJid := some "a@s", id := some "m1" }

/-- The consistent row of the C3 witness. -/
def c3wRow : MessageRow :=
  { pkId := 1, sessionId := "s3w", remoteJid := "a@s", id := "m1",
    cols := { key := some c3wKey0, content := some "c" } }

/-- The store of the C3 witness. -/
def c3wDb : Db := { messages := [c3wRow], nextPk := 2, chats := [] }

/-- A delta touching only the `status` field, for the C3 witness. -/
def c3wDelta : MessageDelta := { status := some 7 }

/-- Witness for the amended C3 at a concrete input. -/
theorem update_delta_merge_preserves_row_witness :
    (Baileys.update "s3w" [{ update := c3wDelta, key := c3wKey0 }] c3wDb).1.findFirst
        "s3w" (some "a@s") (some "m1") =
      some { c3wRow with cols := mergedCols c3wRow.cols c3wDelta } ∧
    (Baileys.update "s3w" [{ update := c3wDelta, key := c3wKey0 }] c3wDb).2 =
      [okEvent "messages.update" "s3w" (EventPayload.updated
        { pkId := some c3wRow.pkId, sessionId := "s3w", remoteJid := c3wRow.remoteJid,
          id := c3wRow.id, cols := mergedCols c3wRow.cols c3wDelta })] ∧
    (mergedCols c3wRow.cols c3wDelta).key = c3wRow.cols.key ∧
    (c3wDelta.status = none →
      (mergedCols c3wRow.cols c3wDelta).status = c3wRow.cols.status) ∧
    (∀ v, c3wDelta.status = some v →
      (mergedCols c3wRow.cols c3wDelta).status = some v) ∧
    (c3wDelta.content = none →
      (mergedCols c3wRow.cols c3wDelta).content = c3wRow.cols.content) ∧
    (∀ v, c3wDelta.content = some v →
      (mergedCols c3wRow.cols c3wDelta).content = some v) ∧
    (c3wDelta.messageTimestamp = none →
      (mergedCols c3wRow.cols c3wDelta).messageTimestamp
        = c3wRow.cols.messageTimestamp) ∧
    (∀ v, c3wDelta.messageTimestamp = some v →
      (mergedCols c3wRow.cols c3wDelta).messageTimestamp = some v) ∧
    (c3wDelta.userReceipt = none →
      (mergedCols c3wRow.cols c3wDelta).userReceipt = c3wRow.cols.userReceipt) ∧
    (∀ v, c3wDelta.userReceipt = some v →
      (mergedCols c3wRow.cols c3wDelta).userReceipt = some v) ∧
    (c3wDelta.reactions = none →
      (mergedCols c3wRow.cols c3wDelta).reactions = c3wRow.cols.reactions) ∧
    (∀ v, c3wDelta.reactions = some v →
      (mergedCols c3wRow.cols c3wDelta).reactions = some v) ∧
    (∀ (it : MessageUpdateItem) (dbx : Db) (e : String),
      updateOneTx "s3w" it.key it.update dbx = Except.error e →
      updateOne "s3w" it dbx =
        (dbx, [errEvent "messages.update" "s3w" (updateErrPrefix ++ e)])) :=
  update_delta_merge_preserves_row "s3w" "a@s" "m1" c3wKey0 c3wDelta c3wRow c3wKey0
    c3wDb
    (Baileys.update "s3w" [{ update := c3wDelta, key := c3wKey0 }] c3wDb).1
    (Baileys.update "s3w" [{ update := c3wDelta, key := c3wKey0 }] c3wDb).2
    rfl rfl (by decide) (by simp [c3wDb]) rfl rfl rfl rfl rfl

/-- C10: on the delete-by-keys input shape with an empty keys list, `del`
fails while reading the first key's chat identifier before issuing any
delete: no row is removed (the state is returned unchanged) and the call
publishes an error outcome event instead of the success outcome describing
the delete request. -/
theorem del_empty_keys_errors (sessionId : String) (db : Db) :
    del sessionId (DelInput.keys []) db =
      (db, [errEvent "messages.delete" sessionId (delErrPrefix ++ undefinedKeyMsg)]) := rfl

/-- C6: an update, receipt-update or reaction event whose key references a
message row that does not exist for `(sessionId, remoteJid, id)` mutates
no row and emits no outcome event at all (in particular no error outcome):
the handler only logs and skips the item. -/
theorem unknown_target_updates_are_noops (sessionId : String) (key : WAMessageKey)
    (d : MessageDelta) (rcpt : MessageUserReceipt) (rx : WAReaction) (db : Db)
    (hmiss : db.findFirst sessionId key.remoteJid key.id = none) :
    update sessionId [{ update := d, key := key }] db = (db, []) ∧
    updateReceipt sessionId [{ key := key, receipt := rcpt }] db = (db, []) ∧
    updateReaction sessionId [{ key := key, reaction := rx }] db = (db, []) := by
  refine ⟨?_, ?_, ?_⟩ <;>
    simp [update, updateOne, updateOneTx, updateReceipt, updateReceiptOne,
      updateReceiptOneTx, updateReaction, updateReactionOne, updateReactionOneTx, hmiss]

/-- Concrete key used by the C6 witness. -/
def c6Key : WAMessageKey := { remoteJid := some "r@s", id := some "i1" }

/-- Witness for C6 at a concrete input: the empty store has no row for the
key, and all three handlers return the store unchanged with no events. -/
theorem unknown_target_updates_are_noops_witness :
    update "s6" [{ update := {}, key := c6Key }] dbEmpty = (dbEmpty, []) ∧
    updateReceipt "s6" [{ key := c6Key, receipt := {} }] dbEmpty = (dbEmpty, []) ∧
    updateReaction "s6" [{ key := c6Key, reaction := {} }] dbEmpty = (dbEmpty, []) :=
  unknown_target_updates_are_noops "s6" c6Key {} {} {} dbEmpty rfl

/-- C8: every call to the history loader publishes exactly one outcome
event: either a success outcome (status absent) carrying the batch of
inserted rows, or an error outcome (status `"error"`) with a message — and
in the error case the store is left exactly as before the call.  Never
both for the same call. -/
theorem set_emits_exactly_one_outcome (sessionId : String) (ms : List WAMessage)
    (isLatest : Bool) (db db2 : Db) (evs : List OutcomeEvent)
    (h : set sessionId ms isLatest db = (db2, evs)) :
    ∃ e, evs = [e] ∧
      ((e.status = none ∧
        ∃ rows, e = okEvent "messages.upsert" sessionId (EventPayload.batch rows)) ∨
       (e.status = some "error" ∧ db2 = db ∧
        ∃ msg, e = errEvent "messages.upsert" sessionId msg)) := by
  unfold set at h
  split at h
  · injection h with h1 h2
    exact ⟨_, h2.symm, Or.inr ⟨rfl, h1.symm, _, rfl⟩⟩
  · split at h
    · injection h with h1 h2
      exact ⟨_, h2.symm, Or.inr ⟨rfl, h1.symm, _, rfl⟩⟩
    · injection h with h1 h2
      exact ⟨_, h2.symm, Or.inl ⟨rfl, _, rfl⟩⟩

/-- Witness for C8 at a concrete input: a successful empty history batch
publishes exactly one outcome. -/
theorem set_emits_exactly_one_outcome_witness :
    ∃ e, (set "s8" [] true dbEmpty).2 = [e] ∧
      ((e.status = none ∧
        ∃ rows, e = okEvent "messages.upsert" "s8" (EventPayload.batch rows)) ∨
       (e.status = some "error" ∧ (set "s8" [] true dbEmpty).1 = dbEmpty ∧
        ∃ msg, e = errEvent "messages.upsert" "s8" msg)) :=
  set_emits_exactly_one_outcome "s8" [] true dbEmpty
    (set "s8" [] true dbEmpty).1 (set "s8" [] true dbEmpty).2 rfl

end Baileys
